import Mathlib

/-!
Verification of the reliability and resource-governance layer of the
content-api service: circuit breaker (`app/error_handling.py`), cache /
rate-limit layer (`app/caching.py`), usage tracking and quota enforcement
(`app/usage_tracking.py`), and webhook delivery / reception
(`app/webhook_handler.py`).

Modelling conventions:
* Python `datetime` instants and durations are modelled as rationals
  (seconds); `total_seconds()` differences become subtraction in `ℚ`.
* Python floats (costs) are modelled as rationals.
* Exceptions that a function catches internally never escape in the code,
  so the corresponding Lean functions are total and return the value the
  Python handler returns; a raised exception that *does* escape is a
  distinguished constructor of the result type.
* The Redis client is modelled as `Option` of a record of primitive
  operations, each of which either returns (`RResult.ok`) or raises
  (`RResult.err`); `none` models `self.redis_client is None`.
-/

namespace ContentApi

/-! ### Circuit breaker (`app/error_handling.py`, class `CircuitBreaker`) -/

/-- The three values of the Python `state` string field:
`"closed"`, `"open"`, `"half-open"`. -/
inductive CBState where
  | closed
  | opened
  | halfOpen
deriving DecidableEq, Repr

/-- State of one `CircuitBreaker` instance (`error_handling.py` lines 28-37).
`recovery_timeout` is an `int` number of seconds in the code; it is kept in
`ℚ` so that it can be compared with elapsed time. -/
structure CircuitBreaker where
  name : String
  failure_threshold : Nat
  recovery_timeout : ℚ
  failure_count : Nat
  last_failure_time : Option ℚ
  state : CBState
deriving DecidableEq, Repr

/-- `CircuitBreaker.__init__`. -/
def mkCircuitBreaker (name : String) (failure_threshold : Nat) (recovery_timeout : ℚ) :
    CircuitBreaker :=
  { name := name
    failure_threshold := failure_threshold
    recovery_timeout := recovery_timeout
    failure_count := 0
    last_failure_time := none
    state := .closed }

/-- `CircuitBreaker.call_succeeded`: reset count, close the breaker. -/
def callSucceeded (b : CircuitBreaker) : CircuitBreaker :=
  { b with failure_count := 0, state := .closed }

/-- `CircuitBreaker.call_failed` at instant `now`: increment the count,
stamp the failure time, and open once the threshold is reached. -/
def callFailed (b : CircuitBreaker) (now : ℚ) : CircuitBreaker :=
  let b' := { b with failure_count := b.failure_count + 1, last_failure_time := some now }
  if b'.failure_threshold ≤ b'.failure_count then
    { b' with state := .opened }
  else
    b'

/-- `CircuitBreaker.is_open` evaluated at instant `now`.  Returns the boolean
the method returns together with the (possibly updated) breaker, since the
method mutates `state` to `"half-open"` when the recovery timeout has
strictly elapsed. -/
def isOpen (b : CircuitBreaker) (now : ℚ) : Bool × CircuitBreaker :=
  match b.state with
  | .closed => (false, b)
  | .opened =>
    match b.last_failure_time with
    | some lf =>
      if b.recovery_timeout < now - lf then
        (false, { b with state := .halfOpen })
      else
        (true, b)
    | none => (true, b)
  | .halfOpen => (false, b)

/-- Outcome of one pass through the `circuit_breaker` decorator's wrapper. -/
inductive CallOutcome where
  | blocked
  | succeeded
  | failed
deriving DecidableEq, Repr

/-- One wrapped call at instant `now` (`error_handling.py` lines 79-96):
check `is_open`; if open raise `CircuitBreakerOpen` without invoking the
wrapped operation, otherwise invoke it and record success or failure.
`opSucceeds` tells whether the wrapped operation would succeed if invoked. -/
def wrappedCall (b : CircuitBreaker) (now : ℚ) (opSucceeds : Bool) :
    CircuitBreaker × CallOutcome :=
  let (blocked, b1) := isOpen b now
  if blocked then
    (b1, .blocked)
  else if opSucceeds then
    (callSucceeded b1, .succeeded)
  else
    (callFailed b1 now, .failed)

/-- Consecutive failing wrapped calls at the listed instants. -/
def failCallsAt (b : CircuitBreaker) : List ℚ → CircuitBreaker
  | [] => b
  | t :: ts => failCallsAt (wrappedCall b t false).1 ts

/-- Reachable breaker configurations: a breaker value paired with the
instant of the last operation performed on it, for an instance created as
`CircuitBreaker(nm, th, rt)`.  The three step constructors are the three
methods `call_succeeded`, `call_failed` and `is_open`; operation instants
never decrease. -/
inductive CBReach (nm : String) (th : Nat) (rt : ℚ) : CircuitBreaker → ℚ → Prop where
  | init (t : ℚ) : CBReach nm th rt (mkCircuitBreaker nm th rt) t
  | succ {b : CircuitBreaker} {t t' : ℚ} (h : CBReach nm th rt b t) (hle : t ≤ t') :
      CBReach nm th rt (callSucceeded b) t'
  | fail {b : CircuitBreaker} {t t' : ℚ} (h : CBReach nm th rt b t) (hle : t ≤ t') :
      CBReach nm th rt (callFailed b t') t'
  | check {b : CircuitBreaker} {t t' : ℚ} (h : CBReach nm th rt b t) (hle : t ≤ t') :
      CBReach nm th rt (isOpen b t').2 t'

/-- The equivalence asserted by C9, read literally about the `state` field
of a breaker observed at instant `now` (possibly later than the last
operation on the breaker).  Stated from the claim's words, to be compared
with the behaviour of the code. -/
def claimedOpenIff (b : CircuitBreaker) (now : ℚ) : Prop :=
  b.state = .opened ↔
    (b.failure_threshold ≤ b.failure_count ∧
     ∃ lf, b.last_failure_time = some lf ∧ now - lf ≤ b.recovery_timeout)

/-- Induction invariant for the breaker state machine, at the instant of
the last operation. -/
def cbInv (th : Nat) (rt : ℚ) (b : CircuitBreaker) (t : ℚ) : Prop :=
  b.failure_threshold = th ∧ b.recovery_timeout = rt ∧
  (b.state = .opened →
    th ≤ b.failure_count ∧ ∃ lf, b.last_failure_time = some lf ∧ t - lf ≤ rt) ∧
  (b.state = .halfOpen →
    th ≤ b.failure_count ∧ ∃ lf, b.last_failure_time = some lf ∧ rt < t - lf) ∧
  (b.state = .closed → b.failure_count < th)

/-! ### Cache layer (`app/caching.py`, class `CacheManager`) -/

/-- The `cache_stats` counters of `CacheManager`. -/
structure CacheStats where
  hits : Nat
  misses : Nat
  errors : Nat
deriving DecidableEq, Repr

/-- Outcome of one primitive Redis operation: it either returns a value or
raises an exception (which the Python caller catches). -/
inductive RResult (α : Type) where
  | ok (a : α)
  | err
deriving DecidableEq, Repr

/-- A connected Redis client as used by `CacheManager`: the primitive
operations invoked by `get`, `set` and `delete`, each with its outcome.
`getOp` yields the stored string for a key, `none` when the key is absent;
`delOp` yields the number of keys removed. -/
structure RClient where
  getOp : String → RResult (Option String)
  setexOp : String → Nat → String → RResult Unit
  delOp : String → RResult Nat

/-- `CacheManager.get` (`caching.py` lines 51-69): `none` for `client`
models `self.redis_client is None`.  Cached values are their stored JSON
strings; `if value:` is Python truthiness, so an empty stored string counts
as a miss.  Exceptions are caught: an erroring read records an error and
returns `None`. -/
def cmGet (client : Option RClient) (stats : CacheStats) (key : String) :
    Option String × CacheStats :=
  match client with
  | none => (none, stats)
  | some c =>
    match c.getOp key with
    | .err => (none, { stats with errors := stats.errors + 1 })
    | .ok none => (none, { stats with misses := stats.misses + 1 })
    | .ok (some v) =>
      if v = "" then (none, { stats with misses := stats.misses + 1 })
      else (some v, { stats with hits := stats.hits + 1 })

/-- `CacheManager.set` (`caching.py` lines 71-90).  `ttl = ttl or
self.default_ttl` replaces both `None` and `0` by the default 3600.  The
value is stored as its JSON serialisation (modelled as the string
`value`). -/
def cmSet (client : Option RClient) (stats : CacheStats) (key value : String)
    (ttl : Option Nat) : Bool × CacheStats :=
  match client with
  | none => (false, stats)
  | some c =>
    let t := match ttl with
      | none => 3600
      | some t0 => if t0 = 0 then 3600 else t0
    match c.setexOp key t value with
    | .err => (false, { stats with errors := stats.errors + 1 })
    | .ok _ => (true, stats)

/-- `CacheManager.delete` (`caching.py` lines 92-103).  Note that neither
the success path nor the exception path touches `cache_stats`. -/
def cmDelete (client : Option RClient) (stats : CacheStats) (key : String) :
    Bool × CacheStats :=
  match client with
  | none => (false, stats)
  | some c =>
    match c.delOp key with
    | .err => (false, stats)
    | .ok n => (decide (0 < n), stats)

/-- `CacheManager.get_stats` (`caching.py` lines 121-130): the derived
`total_requests` and `hit_rate` fields. -/
def getStats (stats : CacheStats) : Nat × ℚ :=
  let total := stats.hits + stats.misses
  (total, (stats.hits : ℚ) / max total 1)

/-! ### Cache key generation (`CacheManager._generate_cache_key`) -/

/-- JSON-serialisable cache-key parameter values. -/
inductive JVal where
  | jstr (s : String)
  | jnum (n : Int)
  | jbool (b : Bool)
  | jnull
deriving DecidableEq, Repr

/-- Rendering of one JSON value, as `json.dumps` renders scalars. -/
def JVal.render : JVal → String
  | .jstr s => "\"" ++ s ++ "\""
  | .jnum n => toString n
  | .jbool true => "true"
  | .jbool false => "false"
  | .jnull => "null"

/-- `json.dumps(params, sort_keys=True)`: serialise the parameter mapping
(given in insertion order) with its keys in sorted order. -/
def jsonDumpsSorted (params : List (String × JVal)) : String :=
  let sorted := params.mergeSort (fun a b => decide (a.1 ≤ b.1))
  "\x7b" ++
    String.intercalate ", " (sorted.map (fun p => "\"" ++ p.1 ++ "\": " ++ p.2.render)) ++
    "\x7d"

/-- Deterministic stand-in for `hashlib.md5(...).hexdigest()`.  The
key-determinism property depends only on the digest being a function of the
serialised string, not on which digest it is. -/
def md5Hex (s : String) : String :=
  (Nat.toDigits 16 (s.data.foldl (fun acc c => (acc * 131 + c.toNat) % (2 ^ 128)) 7)).asString

/-- `CacheManager._generate_cache_key` (`caching.py` lines 44-49). -/
def generateCacheKey (pre : String) (params : List (String × JVal)) : String :=
  pre ++ ":" ++ md5Hex (jsonDumpsSorted params)

/-! ### Rate limiter (`app/caching.py`, class `RateLimitCache`) -/

/-- The primitive Redis operations used by `check_rate_limit` for one
identifier's key: read the current counter (absent when never set or
expired), create it with a TTL, increment it, and read its TTL. -/
structure RLClient where
  getOp : RResult (Option Int)
  setexOp : RResult Unit
  incrOp : RResult Int
  ttlOp : RResult Int

/-- `RateLimitCache.check_rate_limit` (`caching.py` lines 255-292) for one
identifier: the `(is_allowed, remaining_calls)` pair it returns.  Redis
being down (`none`) and every exception path return `(True, limit)`. -/
def checkRateLimit (client : Option RLClient) (limit : Int) : Bool × Int :=
  match client with
  | none => (true, limit)
  | some c =>
    match c.getOp with
    | .err => (true, limit)
    | .ok none =>
      match c.setexOp with
      | .err => (true, limit)
      | .ok _ => (true, limit - 1)
    | .ok (some cur) =>
      if limit ≤ cur then
        match c.ttlOp with
        | .err => (true, limit)
        | .ok _ => (false, 0)
      else
        match c.incrOp with
        | .err => (true, limit)
        | .ok _ => (true, limit - cur - 1)

/-- A healthy client over a counter value: every operation returns, and
`incr` yields the incremented counter. -/
def healthyRLClient (cur : Option Int) : RLClient :=
  { getOp := .ok cur
    setexOp := .ok ()
    incrOp := .ok (match cur with | none => 1 | some c => c + 1)
    ttlOp := .ok 60 }

/-- `check_rate_limit` against a healthy store, as a state transformer on
the counter stored under the identifier's key; `none` models an absent or
expired key (the window has elapsed, since the counter is created with
TTL = window). -/
def checkRateLimitStore (cur : Option Int) (limit : Int) : (Bool × Int) × Option Int :=
  match cur with
  | none => ((true, limit - 1), some 1)
  | some c =>
    if limit ≤ c then ((false, 0), some c)
    else ((true, limit - c - 1), some (c + 1))

/-! ### Usage tracking (`app/usage_tracking.py`, class `UsageTracker`) -/

/-- One period's usage counters as stored in the Redis hash
(`requests`, `tokens`, `cost`). -/
structure RUsage where
  requests : Int
  tokens : Int
  cost : ℚ
deriving DecidableEq, Repr

/-- Result of `_get_usage_from_redis`: either the parsed counter dict or
the empty dict `{}` returned when the client is missing or the read
raises. -/
inductive UsageDict where
  | empty
  | full (u : RUsage)
deriving DecidableEq, Repr

/-- `d.get("requests", 0)` on a `_get_usage_from_redis` result. -/
def UsageDict.requestsD : UsageDict → Int
  | .empty => 0
  | .full u => u.requests

/-- `d.get("tokens", 0)` on a `_get_usage_from_redis` result. -/
def UsageDict.tokensD : UsageDict → Int
  | .empty => 0
  | .full u => u.tokens

/-- `d.get("cost", 0)` on a `_get_usage_from_redis` result. -/
def UsageDict.costD : UsageDict → ℚ
  | .empty => 0
  | .full u => u.cost

/-- `UsageTracker._get_usage_from_redis` (`usage_tracking.py` lines
206-227): no client or an erroring read yields `{}`; a successful
`hgetall` yields the parsed counters (fields absent from the hash parse as
0, so an empty hash parses to zero counters).  The argument is the
optional client together with its read outcome. -/
def getUsageFromRedis (client : Option (RResult RUsage)) : UsageDict :=
  match client with
  | none => .empty
  | some .err => .empty
  | some (.ok u) => .full u

/-- The fixed `self.limits` table shape (`usage_tracking.py` lines 32-39). -/
structure Limits where
  daily_requests : Int
  daily_tokens : Int
  daily_cost_usd : ℚ
  monthly_requests : Int
  monthly_tokens : Int
  monthly_cost_usd : ℚ
deriving DecidableEq, Repr

/-- The values of `self.limits`. -/
def defaultLimits : Limits where
  daily_requests := 1000
  daily_tokens := 1000000
  daily_cost_usd := 50
  monthly_requests := 30000
  monthly_tokens := 30000000
  monthly_cost_usd := 1000

/-- `UsageTracker.check_limits` (`usage_tracking.py` lines 129-204): from
the daily and monthly usage read from Redis, the `is_allowed` flag and the
`exceeded` list of `limit_info`.  All six comparisons are strict `<`; the
two token checks add `tokens_requested` to current usage. -/
def checkLimits (limits : Limits) (daily monthly : UsageDict)
    (tokensRequested : Int) : Bool × List String :=
  let dailyReq := decide (daily.requestsD < limits.daily_requests)
  let dailyTok := decide (daily.tokensD + tokensRequested < limits.daily_tokens)
  let dailyCost := decide (daily.costD < limits.daily_cost_usd)
  let monthlyReq := decide (monthly.requestsD < limits.monthly_requests)
  let monthlyTok := decide (monthly.tokensD + tokensRequested < limits.monthly_tokens)
  let monthlyCost := decide (monthly.costD < limits.monthly_cost_usd)
  let isAllowed := dailyReq && dailyTok && dailyCost &&
    (monthlyReq && monthlyTok && monthlyCost)
  let exceeded :=
    (if dailyReq then [] else ["daily_requests"]) ++
    (if dailyTok then [] else ["daily_tokens"]) ++
    (if dailyCost then [] else ["daily_cost"]) ++
    (if monthlyReq then [] else ["monthly_requests"]) ++
    (if monthlyTok then [] else ["monthly_tokens"]) ++
    (if monthlyCost then [] else ["monthly_cost"])
  (isAllowed, exceeded)

/-- The per-caller effect of `_store_usage_redis` (`usage_tracking.py`
lines 87-127) for a fixed day and month: increment the daily and monthly
hashes of `api_key` by one request, `tokens` tokens and `cost` cost
(`hincrby` / `hincrbyfloat`; a key never written holds zero counters).
`daily` and `monthly` map an api key to its stored counters. -/
def storeUsageRedis (daily monthly : String → RUsage) (api_key : String)
    (tokens : Int) (cost : ℚ) : (String → RUsage) × (String → RUsage) :=
  (Function.update daily api_key
      { requests := (daily api_key).requests + 1
        tokens := (daily api_key).tokens + tokens
        cost := (daily api_key).cost + cost },
   Function.update monthly api_key
      { requests := (monthly api_key).requests + 1
        tokens := (monthly api_key).tokens + tokens
        cost := (monthly api_key).cost + cost })

/-- `self.cost_per_1k_tokens` (`usage_tracking.py` lines 24-29), USD per
1000 tokens, as exact rationals. -/
def cost_per_1k_tokens : List (String × ℚ) :=
  [("gpt-4-turbo-preview", 1/100),
   ("gpt-4-turbo-preview-output", 3/100),
   ("gpt-3.5-turbo", 5/10000),
   ("gpt-3.5-turbo-output", 15/10000)]

/-- Python `dict.get(key, default)` on an association list. -/
def dictGetD (d : List (String × ℚ)) (k : String) (dflt : ℚ) : ℚ :=
  match d.find? (fun p => decide (p.1 = k)) with
  | some p => p.2
  | none => dflt

/-- `UsageTracker.calculate_cost` (`usage_tracking.py` lines 229-238);
float arithmetic modelled exactly over `ℚ`. -/
def calculate_cost (model : String) (input_tokens output_tokens : Int) : ℚ :=
  dictGetD cost_per_1k_tokens model (1/100) * ((input_tokens : ℚ) / 1000) +
  dictGetD cost_per_1k_tokens (model ++ "-output") (3/100) * ((output_tokens : ℚ) / 1000)

/-! ### Outbound webhook retry queue (`app/webhook_handler.py`,
class `WebhookHandler`) -/

/-- `self.retry_delays = [5, 30, 120]` seconds. -/
def retry_delays : List ℚ := [5, 30, 120]

/-- `self.max_retries = 3`. -/
def max_retries : Nat := 3

/-- One entry of `self.pending_webhooks`. -/
structure RetryWebhook where
  webhook_id : String
  url : String
  payload : String
  attempt : Nat
  next_retry : ℚ
  created_at : ℚ
deriving DecidableEq, Repr

/-- One entry of `self.failed_webhooks` (the dead-letter set): the retry
entry together with `failed_at` and `failure_reason`. -/
structure DeadWebhook where
  base : RetryWebhook
  failed_at : ℚ
  failure_reason : String
deriving DecidableEq, Repr

/-- The two queues of `WebhookHandler`. -/
structure WHState where
  pending : List RetryWebhook
  dead : List DeadWebhook
deriving DecidableEq, Repr

/-- The entry `_queue_for_retry` builds (`webhook_handler.py` lines
133-157): `next_retry = now + retry_delays[min(attempt, 2)]`. -/
def mkRetryEntry (url payload webhook_id : String) (attempt : Nat) (now : ℚ) :
    RetryWebhook where
  webhook_id := webhook_id
  url := url
  payload := payload
  attempt := attempt
  next_retry := now + retry_delays.getD (min attempt 2) 0
  created_at := now

/-- `WebhookHandler._queue_for_retry`: append the entry to the pending
list. -/
def queueForRetry (s : WHState) (url payload webhook_id : String) (attempt : Nat)
    (now : ℚ) : WHState :=
  { s with pending := s.pending ++ [mkRetryEntry url payload webhook_id attempt now] }

/-- Processing of one due webhook inside the `process_retry_queue` loop
(`webhook_handler.py` lines 169-207): at or past `max_retries` the entry
moves to the dead-letter set with reason `"max_retries_exceeded"`; below
it, delivery is attempted (outcome `succeeds`) and on failure the entry is
requeued with `attempt + 1`. -/
def processOne (now : ℚ) (succeeds : RetryWebhook → Bool) (st : WHState)
    (w : RetryWebhook) : WHState :=
  if max_retries ≤ w.attempt then
    { st with dead := st.dead ++ [⟨w, now, "max_retries_exceeded"⟩] }
  else if succeeds w then st
  else queueForRetry st w.url w.payload w.webhook_id (w.attempt + 1) now

/-- `WebhookHandler.process_retry_queue` (`webhook_handler.py` lines
159-207): snapshot the due entries, remove them from the pending list, and
process each in order.  (An entry removed by `list.remove` can only match
another due entry, and entries requeued during the loop carry
`next_retry > now`, so the Python snapshot/removal order is equivalent to
this filter-then-fold.) -/
def processRetryQueue (s : WHState) (now : ℚ) (succeeds : RetryWebhook → Bool) :
    WHState :=
  let due := s.pending.filter (fun w => decide (w.next_retry ≤ now))
  let rest := s.pending.filter (fun w => ! decide (w.next_retry ≤ now))
  due.foldl (processOne now succeeds) { s with pending := rest }

/-- The webhooks actually redelivered (sent over the network) during one
`process_retry_queue` run: due entries strictly below `max_retries`. -/
def attemptedIn (s : WHState) (now : ℚ) : List RetryWebhook :=
  (s.pending.filter (fun w => decide (w.next_retry ≤ now))).filter
    (fun w => ! decide (max_retries ≤ w.attempt))

/-- Iterated retry-processor runs (each with its instant and delivery
outcomes). -/
def processRuns (s : WHState) : List (ℚ × (RetryWebhook → Bool)) → WHState
  | [] => s
  | (now, f) :: rs => processRuns (processRetryQueue s now f) rs

/-- All webhooks redelivered over a sequence of retry-processor runs. -/
def attemptsDuring (s : WHState) : List (ℚ × (RetryWebhook → Bool)) → List RetryWebhook
  | [] => []
  | (now, f) :: rs => attemptedIn s now ++ attemptsDuring (processRetryQueue s now f) rs

/-! ### Webhook signatures and inbound dispatch (`app/webhook_handler.py`) -/

/-- Deterministic stand-in for `hmac.new(secret, payload,
sha256).hexdigest()`: an arbitrary keyed digest.  The properties proved
about signature handling depend only on it being a function of secret and
payload. -/
def hmacSha256Hex (secret payload : String) : String :=
  md5Hex (secret ++ ":" ++ payload)

/-- `WebhookHandler._generate_signature`. -/
def generateSignature (secret payload : String) : String :=
  "sha256=" ++ hmacSha256Hex secret payload

/-- `WebhookHandler._verify_signature`; `hmac.compare_digest` is
constant-time string equality. -/
def verifySignature (secret payload signature : String) : Bool :=
  decide (generateSignature secret payload = signature)

/-- The `status` field of the dict returned by
`WebhookReceiver.process_webhook`. -/
inductive WebhookStatus where
  | rejected
  | processed
  | errored
  | unhandled
deriving DecidableEq, Repr

/-- Dispatch of an inbound webhook to its registered handler
(`webhook_handler.py` lines 319-361): `handlers` is the set of registered
event types, `handlerOk` whether the registered handler returns without
raising. -/
def dispatchWebhook (handlers : List String) (handlerOk : String → Bool)
    (event_type : String) : WebhookStatus :=
  if event_type ∈ handlers then
    if handlerOk event_type then .processed else .errored
  else .unhandled

/-- `WebhookReceiver.process_webhook` (`webhook_handler.py` lines 282-361).
The payload dict is identified with its canonical JSON dump `payloadStr`.
Python's `if signature and settings.environment == "production"` treats a
missing (`none`) or empty signature as absent, so verification runs only
when a non-empty signature is supplied *and* the environment is
`"production"`; otherwise the webhook is dispatched unverified. -/
def processWebhook (environment secret : String) (handlers : List String)
    (handlerOk : String → Bool) (event_type payloadStr : String)
    (signature : Option String) : WebhookStatus :=
  match signature with
  | some s =>
    if s ≠ "" ∧ environment = "production" then
      if verifySignature secret payloadStr s then
        dispatchWebhook handlers handlerOk event_type
      else .rejected
    else dispatchWebhook handlers handlerOk event_type
  | none => dispatchWebhook handlers handlerOk event_type

/-- A cache client whose `delete` raises and whose other operations
return. -/
def delErrClient : RClient where
  getOp := fun _ => .ok none
  setexOp := fun _ _ _ => .ok ()
  delOp := fun _ => .err

/-- A cache client whose `setex` raises and whose other operations
return. -/
def setErrClient : RClient where
  getOp := fun _ => .ok none
  setexOp := fun _ _ _ => .err
  delOp := fun _ => .ok 0

/-- A cache client all of whose operations raise. -/
def allErrClient : RClient where
  getOp := fun _ => .err
  setexOp := fun _ _ _ => .err
  delOp := fun _ => .err

/-- A rate-limit client all of whose operations raise. -/
def rlErrClient : RLClient where
  getOp := .err
  setexOp := .err
  incrOp := .err
  ttlOp := .err

/-- C1: with `failure_threshold = 5` and any `recovery_timeout`, five
consecutive failed wrapped calls starting from the closed state leave the
breaker open with `failure_count = 5`; a sixth call made no more than
`recovery_timeout` after the last failure raises the breaker-open error
without invoking the wrapped operation (the result does not depend on the
wrapped operation's outcome and the breaker is unchanged); a call made
strictly more than `recovery_timeout` after the last failure is permitted
(the breaker passes to half-open) and, if it succeeds, the breaker returns
to closed with `failure_count = 0`. -/
theorem c1_circuit_breaker_threshold_and_recovery
    (nm : String) (rt t1 t2 t3 t4 t5 t6 t7 : ℚ) (s : Bool)
    (h6 : t6 - t5 ≤ rt) (h7 : rt < t7 - t5) :
    (failCallsAt (mkCircuitBreaker nm 5 rt) [t1, t2, t3, t4, t5]).state = .opened ∧
    (failCallsAt (mkCircuitBreaker nm 5 rt) [t1, t2, t3, t4, t5]).failure_count = 5 ∧
    wrappedCall (failCallsAt (mkCircuitBreaker nm 5 rt) [t1, t2, t3, t4, t5]) t6 s =
      (failCallsAt (mkCircuitBreaker nm 5 rt) [t1, t2, t3, t4, t5], .blocked) ∧
    (wrappedCall (failCallsAt (mkCircuitBreaker nm 5 rt) [t1, t2, t3, t4, t5]) t7 true).2 =
      .succeeded ∧
    (wrappedCall (failCallsAt (mkCircuitBreaker nm 5 rt) [t1, t2, t3, t4, t5]) t7 true).1.state =
      .closed ∧
    (wrappedCall (failCallsAt (mkCircuitBreaker nm 5 rt) [t1, t2, t3, t4, t5]) t7
      true).1.failure_count = 0 := by
  have hb5 : failCallsAt (mkCircuitBreaker nm 5 rt) [t1, t2, t3, t4, t5] =
      { name := nm, failure_threshold := 5, recovery_timeout := rt,
        failure_count := 5, last_failure_time := some t5, state := .opened } := by
    rfl
  rw [hb5]
  refine ⟨rfl, rfl, ?_, ?_, ?_, ?_⟩
  · simp only [wrappedCall, isOpen, if_neg (not_lt.mpr h6)]
    simp
  · simp only [wrappedCall, isOpen, if_pos h7, callSucceeded]
    simp
  · simp only [wrappedCall, isOpen, if_pos h7, callSucceeded]
    simp
  · simp only [wrappedCall, isOpen, if_pos h7, callSucceeded]
    simp

/-- Witness for C1 at `recovery_timeout = 60`, failures at instants
`0,1,2,3,4`, a blocked call at instant `30` and a permitted, succeeding
call at instant `100`. -/
theorem c1_circuit_breaker_threshold_and_recovery_witness :
    ((30 : ℚ) - 4 ≤ 60) ∧ ((60 : ℚ) < 100 - 4) ∧
    ((failCallsAt (mkCircuitBreaker "svc" 5 60) [0, 1, 2, 3, 4]).state = .opened ∧
     (failCallsAt (mkCircuitBreaker "svc" 5 60) [0, 1, 2, 3, 4]).failure_count = 5 ∧
     wrappedCall (failCallsAt (mkCircuitBreaker "svc" 5 60) [0, 1, 2, 3, 4]) 30 false =
       (failCallsAt (mkCircuitBreaker "svc" 5 60) [0, 1, 2, 3, 4], .blocked) ∧
     (wrappedCall (failCallsAt (mkCircuitBreaker "svc" 5 60) [0, 1, 2, 3, 4]) 100 true).2 =
       .succeeded ∧
     (wrappedCall (failCallsAt (mkCircuitBreaker "svc" 5 60) [0, 1, 2, 3, 4]) 100
       true).1.state = .closed ∧
     (wrappedCall (failCallsAt (mkCircuitBreaker "svc" 5 60) [0, 1, 2, 3, 4]) 100
       true).1.failure_count = 0) :=
  ⟨by norm_num, by norm_num,
   c1_circuit_breaker_threshold_and_recovery "svc" 60 0 1 2 3 4 30 100 false
     (by norm_num) (by norm_num)⟩

theorem isOpen_of_closed {b : CircuitBreaker} (now : ℚ) (h : b.state = .closed) :
    isOpen b now = (false, b) := by
  unfold isOpen
  rw [h]

theorem isOpen_of_halfOpen {b : CircuitBreaker} (now : ℚ) (h : b.state = .halfOpen) :
    isOpen b now = (false, b) := by
  unfold isOpen
  rw [h]

theorem isOpen_of_opened_elapsed {b : CircuitBreaker} {now lf : ℚ} (h : b.state = .opened)
    (hlf : b.last_failure_time = some lf) (hgt : b.recovery_timeout < now - lf) :
    isOpen b now = (false, { b with state := .halfOpen }) := by
  unfold isOpen
  rw [h, hlf]
  dsimp only
  rw [if_pos hgt]

theorem isOpen_of_opened_recent {b : CircuitBreaker} {now lf : ℚ} (h : b.state = .opened)
    (hlf : b.last_failure_time = some lf) (hle : ¬ b.recovery_timeout < now - lf) :
    isOpen b now = (true, b) := by
  unfold isOpen
  rw [h, hlf]
  dsimp only
  rw [if_neg hle]

theorem isOpen_of_opened_none {b : CircuitBreaker} (now : ℚ) (h : b.state = .opened)
    (hlf : b.last_failure_time = none) : isOpen b now = (true, b) := by
  unfold isOpen
  rw [h, hlf]

theorem callFailed_of_threshold {b : CircuitBreaker} (now : ℚ)
    (h : b.failure_threshold ≤ b.failure_count + 1) :
    callFailed b now =
      { b with
          failure_count := b.failure_count + 1
          last_failure_time := some now
          state := .opened } := by
  simp only [callFailed]
  rw [if_pos h]

theorem callFailed_below_threshold {b : CircuitBreaker} (now : ℚ)
    (h : ¬ b.failure_threshold ≤ b.failure_count + 1) :
    callFailed b now =
      { b with
          failure_count := b.failure_count + 1
          last_failure_time := some now } := by
  simp only [callFailed]
  rw [if_neg h]

theorem cbReach_inv {nm : String} {th : Nat} {rt : ℚ} {b : CircuitBreaker} {t : ℚ}
    (hth : 1 ≤ th) (hrt : 0 ≤ rt) (h : CBReach nm th rt b t) : cbInv th rt b t := by
  induction h with
  | init t =>
    exact ⟨rfl, rfl, fun h => absurd h (by simp [mkCircuitBreaker]),
      fun h => absurd h (by simp [mkCircuitBreaker]), fun _ => hth⟩
  | succ h hle ih =>
    exact ⟨ih.1, ih.2.1, fun h => absurd h (by simp [callSucceeded]),
      fun h => absurd h (by simp [callSucceeded]), fun _ => hth⟩
  | fail h hle ih =>
    rename_i b t t'
    obtain ⟨hthf, hrtf, ho, hh, hc⟩ := ih
    by_cases hcase : b.failure_threshold ≤ b.failure_count + 1
    · rw [callFailed_of_threshold t' hcase]
      refine ⟨hthf, hrtf, fun _ => ⟨by dsimp only; omega, t', rfl, by simpa [hrtf] using hrt⟩,
        fun h => absurd h (by simp), fun h => absurd h (by simp)⟩
    · rw [callFailed_below_threshold t' hcase]
      refine ⟨hthf, hrtf, fun hs => ?_, fun hs => ?_, fun _ => by simp; omega⟩
      · have := (ho hs).1
        omega
      · have := (hh hs).1
        omega
  | check h hle ih =>
    rename_i b t t'
    obtain ⟨hthf, hrtf, ho, hh, hc⟩ := ih
    match hstate : b.state with
    | .closed =>
      rw [isOpen_of_closed t' hstate]
      exact ⟨hthf, hrtf, fun hx => absurd (hstate ▸ hx) (by simp),
        fun hx => absurd (hstate ▸ hx) (by simp), fun _ => hc hstate⟩
    | .opened =>
      obtain ⟨hcnt, lf, hlf, hel⟩ := ho hstate
      by_cases hgt : b.recovery_timeout < t' - lf
      · rw [isOpen_of_opened_elapsed hstate hlf hgt]
        exact ⟨hthf, hrtf, fun hx => absurd hx (by simp),
          fun _ => ⟨hcnt, lf, hlf, hrtf ▸ hgt⟩, fun hx => absurd hx (by simp)⟩
      · rw [isOpen_of_opened_recent hstate hlf hgt]
        exact ⟨hthf, hrtf, fun _ => ⟨hcnt, lf, hlf, hrtf ▸ le_of_not_lt hgt⟩,
          fun hx => absurd (hstate ▸ hx) (by simp),
          fun hx => absurd (hstate ▸ hx) (by simp)⟩
    | .halfOpen =>
      obtain ⟨hcnt, lf, hlf, hel⟩ := hh hstate
      rw [isOpen_of_halfOpen t' hstate]
      exact ⟨hthf, hrtf, fun hx => absurd (hstate ▸ hx) (by simp),
        fun _ => ⟨hcnt, lf, hlf, lt_of_lt_of_le hel (by linarith)⟩,
        fun hx => absurd (hstate ▸ hx) (by simp)⟩

/-- C9 counterexample: a breaker created with threshold 5 and timeout 60
that failed five times at instant 0 is reachable with last operation at
instant 0; observed at instant 61 — a point between wrapped calls, 61
seconds after the last failure — its `state` field still reads `"open"`
although strictly more than `recovery_timeout` seconds have elapsed since
`last_failure_time`, so the claimed equivalence is false there. -/
theorem c9_state_iff_counterexample :
    CBReach "svc" 5 60 (failCallsAt (mkCircuitBreaker "svc" 5 60) [0, 0, 0, 0, 0]) 0 ∧
    ((0 : ℚ) ≤ 61) ∧
    ¬ claimedOpenIff (failCallsAt (mkCircuitBreaker "svc" 5 60) [0, 0, 0, 0, 0]) 61 := by
  have hreach : CBReach "svc" 5 60
      (failCallsAt (mkCircuitBreaker "svc" 5 60) [0, 0, 0, 0, 0]) 0 := by
    have h0 : failCallsAt (mkCircuitBreaker "svc" 5 60) [0, 0, 0, 0, 0] =
        callFailed (callFailed (callFailed (callFailed (callFailed
          (mkCircuitBreaker "svc" 5 60) 0) 0) 0) 0) 0 := rfl
    rw [h0]
    exact .fail (.fail (.fail (.fail (.fail (.init 0) le_rfl) le_rfl) le_rfl) le_rfl) le_rfl
  refine ⟨hreach, by norm_num, fun hiff => ?_⟩
  have hb : failCallsAt (mkCircuitBreaker "svc" 5 60) [0, 0, 0, 0, 0] =
      { name := "svc", failure_threshold := 5, recovery_timeout := 60,
        failure_count := 5, last_failure_time := some 0, state := .opened } := rfl
  rw [hb] at hiff
  obtain ⟨-, lf, hlf, hle⟩ := hiff.mp rfl
  have : lf = 0 := by simpa using hlf.symm
  subst this
  norm_num at hle

/-- C9 (amended): the literal `state`-field equivalence holds at the
instant of each breaker operation rather than at every instant between
wrapped calls (the field is updated lazily, inside `is_open`).  Precisely,
for a breaker created with threshold ≥ 1 and nonnegative timeout: (1) at
every reachable configuration, observed at the instant of its last
operation, `state = "open"` iff `failure_count ≥ failure_threshold` and no
more than `recovery_timeout` seconds elapsed since `last_failure_time`;
(2) the breaker moves to half-open on the first `is_open` check made
strictly more than `recovery_timeout` after the last failure; (3) no
operation other than a successful call ever returns the breaker to
closed. -/
theorem c9_state_invariant_amended (nm : String) (th : Nat) (rt : ℚ)
    (hth : 1 ≤ th) (hrt : 0 ≤ rt) :
    (∀ (b : CircuitBreaker) (t : ℚ), CBReach nm th rt b t →
      (b.state = .opened ↔
        th ≤ b.failure_count ∧ ∃ lf, b.last_failure_time = some lf ∧ t - lf ≤ rt)) ∧
    (∀ (b : CircuitBreaker) (t' lf : ℚ), b.state = .opened →
      b.last_failure_time = some lf → b.recovery_timeout < t' - lf →
      isOpen b t' = (false, { b with state := .halfOpen })) ∧
    (∀ (b : CircuitBreaker) (t' : ℚ), b.state ≠ .closed →
      (callFailed b t').state ≠ .closed ∧ ((isOpen b t').2).state ≠ .closed) := by
  refine ⟨fun b t hreach => ?_,
    fun b t' lf hs hlf hgt => isOpen_of_opened_elapsed hs hlf hgt,
    fun b t' hs => ⟨fun hcl => ?_, fun hcl => ?_⟩⟩
  · obtain ⟨hthf, hrtf, ho, hh, hc⟩ := cbReach_inv hth hrt hreach
    constructor
    · exact ho
    · rintro ⟨hcnt, lf, hlf, hel⟩
      match hstate : b.state with
      | .opened => rfl
      | .closed => exact absurd hcnt (Nat.not_le.mpr (hc hstate))
      | .halfOpen =>
        obtain ⟨-, lf', hlf', hel'⟩ := hh hstate
        rw [hlf] at hlf'
        obtain rfl : lf = lf' := by simpa using hlf'
        exact absurd hel (not_le.mpr hel')
  · by_cases hcase : b.failure_threshold ≤ b.failure_count + 1
    · rw [callFailed_of_threshold t' hcase] at hcl
      simp at hcl
    · rw [callFailed_below_threshold t' hcase] at hcl
      simp only at hcl
      exact hs hcl
  · match hstate : b.state with
    | .closed => exact hs hstate
    | .halfOpen =>
      rw [isOpen_of_halfOpen t' hstate] at hcl
      simp only at hcl
      exact hs hcl
    | .opened =>
      cases hlfo : b.last_failure_time with
      | none =>
        rw [isOpen_of_opened_none t' hstate hlfo] at hcl
        simp only at hcl
        exact hs hcl
      | some lf =>
        by_cases hgt : b.recovery_timeout < t' - lf
        · rw [isOpen_of_opened_elapsed hstate hlfo hgt] at hcl
          simp at hcl
        · rw [isOpen_of_opened_recent hstate hlfo hgt] at hcl
          simp only at hcl
          exact hs hcl

/-- Witness for the amended C9 at a freshly created breaker (threshold 5,
timeout 60) observed at instant 0. -/
theorem c9_state_invariant_amended_witness :
    (1 ≤ 5) ∧ ((0 : ℚ) ≤ 60) ∧
    ((mkCircuitBreaker "svc" 5 60).state = .opened ↔
      5 ≤ (mkCircuitBreaker "svc" 5 60).failure_count ∧
      ∃ lf, (mkCircuitBreaker "svc" 5 60).last_failure_time = some lf ∧
        (0 : ℚ) - lf ≤ 60) :=
  ⟨by norm_num, by norm_num,
   (c9_state_invariant_amended "svc" 5 60 (by norm_num) (by norm_num)).1
     (mkCircuitBreaker "svc" 5 60) 0 (.init 0)⟩

/-- On a healthy client the state-level transformer agrees with
`check_rate_limit`. -/
theorem checkRateLimit_healthy_agrees (cur : Option Int) (limit : Int) :
    checkRateLimit (some (healthyRLClient cur)) limit =
      (checkRateLimitStore cur limit).1 := by
  cases cur with
  | none => rfl
  | some c =>
    simp only [checkRateLimit, checkRateLimitStore, healthyRLClient]
    split <;> rfl

/-- C4: with limit 3, window 60 s and a fresh identifier (no stored
counter), four consecutive checks within the window return
`(True, 2)`, `(True, 1)`, `(True, 0)`, `(False, 0)`; once the key's TTL
has elapsed the counter is absent again and the next check returns
`(True, 2)`, starting a fresh window. -/
theorem c4_rate_limit_window_sequence :
    (checkRateLimitStore none 3).1 = (true, 2) ∧
    (checkRateLimitStore (checkRateLimitStore none 3).2 3).1 = (true, 1) ∧
    (checkRateLimitStore (checkRateLimitStore
      (checkRateLimitStore none 3).2 3).2 3).1 = (true, 0) ∧
    (checkRateLimitStore (checkRateLimitStore (checkRateLimitStore
      (checkRateLimitStore none 3).2 3).2 3).2 3).1 = (false, 0) ∧
    (checkRateLimitStore none 3).1 = (true, 2) := by
  decide

/-- C6 counterexample: with the key-value store unavailable both usage
reads yield the empty dict (zero usage), yet `check_limits` called with
`tokens_requested = 1000000` is denied — the daily token check compares
`0 + 1000000 < 1000000` — so the claim's parenthetical that `check_limits`
then returns allowed=true is false. -/
theorem c6_store_down_check_limits_counterexample :
    getUsageFromRedis none = .empty ∧
    checkLimits defaultLimits (getUsageFromRedis none) (getUsageFromRedis none)
      1000000 = (false, ["daily_tokens"]) := by
  exact ⟨rfl, by decide⟩

/-- C6 (amended): when the store is unavailable — no connected client, or
every store operation raising — no degraded path raises: cache `get`
returns `None`, cache `set` returns `False`, the rate-limit check returns
`(True, limit)`, and usage reads return the empty dict, whose counters all
read zero; consequently `check_limits` returns allowed=true whenever
`tokens_requested` is below the daily token ceiling (a request whose
`tokens_requested` alone reaches a token ceiling is still denied). -/
theorem c6_store_unavailable_fail_open
    (stats : CacheStats) (key value : String) (ttl : Option Nat) (limit : Int)
    (c : RClient) (rl : RLClient) (tokensRequested : Int)
    (hg : c.getOp key = .err) (hs : ∀ t, c.setexOp key t value = .err)
    (hrl : rl.getOp = .err) (htok : tokensRequested < 1000000) :
    cmGet none stats key = (none, stats) ∧
    cmGet (some c) stats key = (none, { stats with errors := stats.errors + 1 }) ∧
    cmSet none stats key value ttl = (false, stats) ∧
    cmSet (some c) stats key value ttl =
      (false, { stats with errors := stats.errors + 1 }) ∧
    checkRateLimit none limit = (true, limit) ∧
    checkRateLimit (some rl) limit = (true, limit) ∧
    getUsageFromRedis none = .empty ∧
    getUsageFromRedis (some .err) = .empty ∧
    UsageDict.empty.requestsD = 0 ∧ UsageDict.empty.tokensD = 0 ∧
    UsageDict.empty.costD = 0 ∧
    (checkLimits defaultLimits (getUsageFromRedis none) (getUsageFromRedis none)
      tokensRequested).1 = true := by
  refine ⟨rfl, ?_, rfl, ?_, rfl, ?_, rfl, rfl, rfl, rfl, rfl, ?_⟩
  · simp [cmGet, hg]
  · simp [cmSet, hs]
  · simp [checkRateLimit, hrl]
  · simp only [getUsageFromRedis, checkLimits, UsageDict.requestsD,
      UsageDict.tokensD, UsageDict.costD, defaultLimits]
    simp only [Bool.and_eq_true, decide_eq_true_eq]
    norm_num
    omega

/-- C6 witness: all-raising clients, `tokens_requested = 10`. -/
theorem c6_store_unavailable_fail_open_witness :
    (allErrClient.getOp "k" = .err) ∧ (∀ t, allErrClient.setexOp "k" t "v" = .err) ∧
    (rlErrClient.getOp = .err) ∧ ((10 : Int) < 1000000) ∧
    (cmGet none ⟨0, 0, 0⟩ "k" = (none, ⟨0, 0, 0⟩) ∧
     cmGet (some allErrClient) ⟨0, 0, 0⟩ "k" = (none, ⟨0, 0, 1⟩) ∧
     cmSet none ⟨0, 0, 0⟩ "k" "v" none = (false, ⟨0, 0, 0⟩) ∧
     cmSet (some allErrClient) ⟨0, 0, 0⟩ "k" "v" none = (false, ⟨0, 0, 1⟩) ∧
     checkRateLimit none 3 = (true, 3) ∧
     checkRateLimit (some rlErrClient) 3 = (true, 3) ∧
     getUsageFromRedis none = .empty ∧
     getUsageFromRedis (some .err) = .empty ∧
     UsageDict.empty.requestsD = 0 ∧ UsageDict.empty.tokensD = 0 ∧
     UsageDict.empty.costD = 0 ∧
     (checkLimits defaultLimits (getUsageFromRedis none) (getUsageFromRedis none)
       10).1 = true) :=
  ⟨rfl, fun _ => rfl, rfl, by norm_num,
   c6_store_unavailable_fail_open ⟨0, 0, 0⟩ "k" "v" none 3 allErrClient rlErrClient
     10 rfl (fun _ => rfl) rfl (by norm_num)⟩

/-- C8 counterexample: a `delete` whose Redis call raises leaves the
hits/misses/errors counters unchanged — the claim that a failing delete
records an error is false on the code (`CacheManager.delete` has no
`cache_stats` update on its exception path). -/
theorem c8_delete_error_not_recorded_counterexample :
    cmDelete (some delErrClient) ⟨0, 0, 0⟩ "k" = (false, ⟨0, 0, 0⟩) := rfl

/-- C8 (amended): with a connected client, every `get` records exactly one
of hit, miss or error; a `set` whose store write raises records an error;
`delete` never records into the counters (in particular a failing delete
records no error); operations short-circuited by a missing client record
nothing; and `get_stats` reports `total_requests = hits + misses` and
`hit_rate = hits / max(total_requests, 1)`. -/
theorem c8_cache_stats_accounting (c : RClient) (stats : CacheStats)
    (key value : String) (ttl : Option Nat)
    (hset : ∀ t, c.setexOp key t value = .err) :
    ((cmGet (some c) stats key).2 = { stats with hits := stats.hits + 1 } ∨
     (cmGet (some c) stats key).2 = { stats with misses := stats.misses + 1 } ∨
     (cmGet (some c) stats key).2 = { stats with errors := stats.errors + 1 }) ∧
    cmSet (some c) stats key value ttl =
      (false, { stats with errors := stats.errors + 1 }) ∧
    (∀ c' : RClient, (cmDelete (some c') stats key).2 = stats) ∧
    (cmGet none stats key = (none, stats) ∧
     cmSet none stats key value ttl = (false, stats) ∧
     cmDelete none stats key = (false, stats)) ∧
    getStats stats = (stats.hits + stats.misses,
      (stats.hits : ℚ) / max (stats.hits + stats.misses) 1) := by
  refine ⟨?_, by simp [cmSet, hset], fun c' => ?_, ⟨rfl, rfl, rfl⟩, rfl⟩
  · cases hg : c.getOp key with
    | err => exact Or.inr (Or.inr (by simp [cmGet, hg]))
    | ok o =>
      cases o with
      | none => exact Or.inr (Or.inl (by simp [cmGet, hg]))
      | some v =>
        by_cases hv : v = ""
        · exact Or.inr (Or.inl (by simp [cmGet, hg, hv]))
        · exact Or.inl (by simp [cmGet, hg, hv])
  · cases hd : c'.delOp key with
    | err => simp [cmDelete, hd]
    | ok n => simp [cmDelete, hd]

/-- C8 witness: a client whose `setex` raises, starting from counters
`(1, 2, 3)`. -/
theorem c8_cache_stats_accounting_witness :
    (∀ t, setErrClient.setexOp "k" t "v" = .err) ∧
    (((cmGet (some setErrClient) ⟨1, 2, 3⟩ "k").2 = { hits := 2, misses := 2, errors := 3 } ∨
      (cmGet (some setErrClient) ⟨1, 2, 3⟩ "k").2 = { hits := 1, misses := 3, errors := 3 } ∨
      (cmGet (some setErrClient) ⟨1, 2, 3⟩ "k").2 = { hits := 1, misses := 2, errors := 4 }) ∧
     cmSet (some setErrClient) ⟨1, 2, 3⟩ "k" "v" none =
       (false, { hits := 1, misses := 2, errors := 4 }) ∧
     (∀ c' : RClient, (cmDelete (some c') ⟨1, 2, 3⟩ "k").2 = ⟨1, 2, 3⟩) ∧
     (cmGet none ⟨1, 2, 3⟩ "k" = (none, ⟨1, 2, 3⟩) ∧
      cmSet none ⟨1, 2, 3⟩ "k" "v" none = (false, ⟨1, 2, 3⟩) ∧
      cmDelete none ⟨1, 2, 3⟩ "k" = (false, ⟨1, 2, 3⟩)) ∧
     getStats ⟨1, 2, 3⟩ = (3, (1 : ℚ) / 3)) := by
  refine ⟨fun _ => rfl, ?_⟩
  have h := c8_cache_stats_accounting setErrClient ⟨1, 2, 3⟩ "k" "v" none (fun _ => rfl)
  convert h using 3

theorem mem_if_nil_singleton (b : Bool) (x y : String) :
    (y ∈ if b then ([] : List String) else [x]) ↔ y = x ∧ b = false := by
  cases b <;> simp

/-- C2: `check_limits` allows a request iff all six ceiling checks pass,
and its `exceeded` list holds exactly the names of the failing ceilings;
with the default daily_requests limit of 1000 and exactly 1000 recorded
requests the caller is denied with `"daily_requests"` exceeded; and
recording usage for one caller leaves every other caller's stored counters
unchanged. -/
theorem c2_quota_enforcement (L : Limits) (d m : UsageDict) (t : Int) :
    ((checkLimits L d m t).1 = true ↔
      (d.requestsD < L.daily_requests ∧ d.tokensD + t < L.daily_tokens ∧
       d.costD < L.daily_cost_usd ∧ m.requestsD < L.monthly_requests ∧
       m.tokensD + t < L.monthly_tokens ∧ m.costD < L.monthly_cost_usd)) ∧
    (∀ name : String, name ∈ (checkLimits L d m t).2 ↔
      ((name = "daily_requests" ∧ ¬ d.requestsD < L.daily_requests) ∨
       (name = "daily_tokens" ∧ ¬ d.tokensD + t < L.daily_tokens) ∨
       (name = "daily_cost" ∧ ¬ d.costD < L.daily_cost_usd) ∨
       (name = "monthly_requests" ∧ ¬ m.requestsD < L.monthly_requests) ∨
       (name = "monthly_tokens" ∧ ¬ m.tokensD + t < L.monthly_tokens) ∨
       (name = "monthly_cost" ∧ ¬ m.costD < L.monthly_cost_usd))) ∧
    checkLimits defaultLimits (.full ⟨1000, 0, 0⟩) (.full ⟨1000, 0, 0⟩) 0 =
      (false, ["daily_requests"]) ∧
    (∀ (daily monthly : String → RUsage) (k1 k2 : String) (tok : Int) (cost : ℚ),
      k1 ≠ k2 →
      (storeUsageRedis daily monthly k2 tok cost).1 k1 = daily k1 ∧
      (storeUsageRedis daily monthly k2 tok cost).2 k1 = monthly k1) := by
  refine ⟨?_, ?_, by decide, fun daily monthly k1 k2 tok cost hne => ?_⟩
  · simp only [checkLimits]
    simp [Bool.and_eq_true, decide_eq_true_eq, and_assoc]
  · intro name
    simp only [checkLimits, List.mem_append, mem_if_nil_singleton,
      decide_eq_false_iff_not]
    tauto
  · exact ⟨Function.update_noteq hne _ _, Function.update_noteq hne _ _⟩

/-- C2 witness: the membership equivalence at the denied concrete state
and counter isolation between callers `"a"` and `"b"`. -/
theorem c2_quota_enforcement_witness :
    (("a" : String) ≠ "b") ∧
    ((storeUsageRedis (fun _ => ⟨0, 0, 0⟩) (fun _ => ⟨0, 0, 0⟩) "b" 5 1).1 "a" =
        (⟨0, 0, 0⟩ : RUsage) ∧
     (storeUsageRedis (fun _ => ⟨0, 0, 0⟩) (fun _ => ⟨0, 0, 0⟩) "b" 5 1).2 "a" =
        (⟨0, 0, 0⟩ : RUsage)) :=
  ⟨by decide,
   (c2_quota_enforcement defaultLimits .empty .empty 0).2.2.2
     (fun _ => ⟨0, 0, 0⟩) (fun _ => ⟨0, 0, 0⟩) "a" "b" 5 1 (by decide)⟩

theorem dictGetD_not_mem (d : List (String × ℚ)) (k : String) (dflt : ℚ)
    (h : k ∉ d.map Prod.fst) : dictGetD d k dflt = dflt := by
  unfold dictGetD
  have hnone : d.find? (fun p => decide (p.1 = k)) = none := by
    rw [List.find?_eq_none]
    intro x hx
    simp only [decide_eq_true_eq]
    intro hk
    exact h (hk ▸ List.mem_map_of_mem Prod.fst hx)
  rw [hnone]

theorem output_key_not_mem (model : String)
    (h : model ∉ cost_per_1k_tokens.map Prod.fst) :
    (model ++ "-output") ∉ cost_per_1k_tokens.map Prod.fst := by
  intro hmem
  simp only [cost_per_1k_tokens, List.map_cons, List.map_nil, List.mem_cons,
    List.not_mem_nil, or_false] at hmem h
  push_neg at h
  obtain ⟨h1, h2, h3, h4⟩ := h
  rcases hmem with hc | hc | hc | hc
  · have hd := congrArg String.data hc
    rw [String.data_append] at hd
    have hsplit : ("gpt-4-turbo-preview" : String).data =
        ("gpt-4-turbo-" : String).data ++ ("preview" : String).data := rfl
    rw [hsplit] at hd
    exact absurd (List.append_inj' hd (by decide)).2 (by decide)
  · have hd := congrArg String.data hc
    rw [String.data_append] at hd
    have hsplit : ("gpt-4-turbo-preview-output" : String).data =
        ("gpt-4-turbo-preview" : String).data ++ ("-output" : String).data := rfl
    rw [hsplit] at hd
    exact h1 (String.ext (List.append_inj' hd (by decide)).1)
  · have hd := congrArg String.data hc
    rw [String.data_append] at hd
    have hsplit : ("gpt-3.5-turbo" : String).data =
        ("gpt-3." : String).data ++ ("5-turbo" : String).data := rfl
    rw [hsplit] at hd
    exact absurd (List.append_inj' hd (by decide)).2 (by decide)
  · have hd := congrArg String.data hc
    rw [String.data_append] at hd
    have hsplit : ("gpt-3.5-turbo-output" : String).data =
        ("gpt-3.5-turbo" : String).data ++ ("-output" : String).data := rfl
    rw [hsplit] at hd
    exact h3 (String.ext (List.append_inj' hd (by decide)).1)

/-- C10: `calculate_cost` is the pure function
`rate_in(model) * input_tokens/1000 + rate_out(model) * output_tokens/1000`
with the rates taken from the price table (the output rate under the key
`model + "-output"`), and for every model string absent from the table both
lookups fall back to the defaults 0.01 and 0.03 per 1000 tokens (a key
`m + "-output"` can only be present when `m` itself is). -/
theorem c10_calculate_cost_table_and_fallback (i o : Int) (model : String)
    (habs : model ∉ cost_per_1k_tokens.map Prod.fst) :
    calculate_cost "gpt-4-turbo-preview" i o =
      (1 / 100) * ((i : ℚ) / 1000) + (3 / 100) * ((o : ℚ) / 1000) ∧
    calculate_cost "gpt-3.5-turbo" i o =
      (5 / 10000) * ((i : ℚ) / 1000) + (15 / 10000) * ((o : ℚ) / 1000) ∧
    calculate_cost model i o =
      (1 / 100) * ((i : ℚ) / 1000) + (3 / 100) * ((o : ℚ) / 1000) := by
  refine ⟨rfl, rfl, ?_⟩
  unfold calculate_cost
  rw [dictGetD_not_mem _ _ _ habs,
    dictGetD_not_mem _ _ _ (output_key_not_mem model habs)]

/-- C10 witness at `model = "claude-3"`, 2000 input and 1000 output
tokens. -/
theorem c10_calculate_cost_witness :
    ("claude-3" ∉ cost_per_1k_tokens.map Prod.fst) ∧
    (calculate_cost "gpt-4-turbo-preview" 2000 1000 =
      (1 / 100) * ((2000 : ℚ) / 1000) + (3 / 100) * ((1000 : ℚ) / 1000) ∧
     calculate_cost "gpt-3.5-turbo" 2000 1000 =
      (5 / 10000) * ((2000 : ℚ) / 1000) + (15 / 10000) * ((1000 : ℚ) / 1000) ∧
     calculate_cost "claude-3" 2000 1000 =
      (1 / 100) * ((2000 : ℚ) / 1000) + (3 / 100) * ((1000 : ℚ) / 1000)) :=
  ⟨by decide, c10_calculate_cost_table_and_fallback 2000 1000 "claude-3" (by decide)⟩

/-- C7: cache key generation is deterministic and insertion-order
independent: for every prefix, two parameter mappings holding identical
key-value pairs in any insertion order (a permutation; Python dict keys
are unique) produce identical cache keys, because the serialisation sorts
the keys before hashing. -/
theorem c7_cache_key_order_independent (pre : String)
    (p1 p2 : List (String × JVal)) (hperm : p1.Perm p2)
    (hnodup : (p1.map Prod.fst).Nodup) :
    generateCacheKey pre p1 = generateCacheKey pre p2 := by
  have hsort : p1.mergeSort (fun a b => decide (a.1 ≤ b.1)) =
      p2.mergeSort (fun a b => decide (a.1 ≤ b.1)) := by
    have htrans : ∀ a b c : String × JVal,
        decide (a.1 ≤ b.1) = true → decide (b.1 ≤ c.1) = true →
        decide (a.1 ≤ c.1) = true := by
      intro a b c hab hbc
      simp only [decide_eq_true_eq] at hab hbc ⊢
      exact le_trans hab hbc
    have htotal : ∀ a b : String × JVal,
        (decide (a.1 ≤ b.1) || decide (b.1 ≤ a.1)) = true := by
      intro a b
      simp only [Bool.or_eq_true, decide_eq_true_eq]
      exact le_total a.1 b.1
    have hperm1 := List.mergeSort_perm p1 (fun a b => decide (a.1 ≤ b.1))
    have hperm2 := List.mergeSort_perm p2 (fun a b => decide (a.1 ≤ b.1))
    have hs1 := List.sorted_mergeSort htrans htotal p1
    have hs2 := List.sorted_mergeSort htrans htotal p2
    have hn1 : ((p1.mergeSort (fun a b => decide (a.1 ≤ b.1))).map Prod.fst).Nodup :=
      ((hperm1.map Prod.fst).nodup_iff).mpr hnodup
    have hn2 : ((p2.mergeSort (fun a b => decide (a.1 ≤ b.1))).map Prod.fst).Nodup :=
      ((hperm2.map Prod.fst).nodup_iff).mpr (((hperm.map Prod.fst).nodup_iff).mp hnodup)
    have hlt1 : (p1.mergeSort (fun a b => decide (a.1 ≤ b.1))).Pairwise
        (fun a b : String × JVal => a.1 < b.1) :=
      ((hs1.imp (fun h => of_decide_eq_true h)).and (List.pairwise_map.mp hn1)).imp
        (fun h => lt_of_le_of_ne h.1 h.2)
    have hlt2 : (p2.mergeSort (fun a b => decide (a.1 ≤ b.1))).Pairwise
        (fun a b : String × JVal => a.1 < b.1) :=
      ((hs2.imp (fun h => of_decide_eq_true h)).and (List.pairwise_map.mp hn2)).imp
        (fun h => lt_of_le_of_ne h.1 h.2)
    have hp12 := hperm1.trans (hperm.trans hperm2.symm)
    haveI : IsAntisymm (String × JVal) (fun a b => a.1 < b.1) :=
      ⟨fun a b hab hba => absurd hba (lt_asymm hab)⟩
    exact List.eq_of_perm_of_sorted hp12 hlt1 hlt2
  unfold generateCacheKey jsonDumpsSorted
  rw [hsort]

/-- C7 witness: the two-key mapping `(b, 1), (a, "x")` inserted in either
order. -/
theorem c7_cache_key_order_independent_witness :
    ([("b", JVal.jnum 1), ("a", JVal.jstr "x")].Perm
      [("a", JVal.jstr "x"), ("b", JVal.jnum 1)]) ∧
    (([("b", JVal.jnum 1), ("a", JVal.jstr "x")].map Prod.fst).Nodup) ∧
    generateCacheKey "content" [("b", JVal.jnum 1), ("a", JVal.jstr "x")] =
      generateCacheKey "content" [("a", JVal.jstr "x"), ("b", JVal.jnum 1)] :=
  ⟨by decide, by decide,
   c7_cache_key_order_independent "content" _ _ (by decide) (by decide)⟩

theorem generateSignature_ne_empty (secret payload : String) :
    generateSignature secret payload ≠ "" := by
  intro h
  have hd := congrArg String.data h
  rw [generateSignature, String.data_append] at hd
  have hnil : ("" : String).data = [] := rfl
  rw [hnil, List.append_eq_nil] at hd
  exact absurd hd.1 (by decide)

/-- C5 counterexample: in the production posture an *unsigned* inbound
webhook skips verification entirely and is dispatched to its registered
handler (`process_webhook` verifies only when `signature` is truthy *and*
the environment is production), contradicting the claim that in production
every inbound webhook is verified and an unsigned payload is not
dispatched to a handler. -/
theorem c5_unsigned_production_dispatched_counterexample :
    processWebhook "production" "secret" ["content_approved"] (fun _ => true)
      "content_approved" "\x7b\x7d" none = .processed := rfl

/-- C5 (amended): signature verification runs only when a non-empty
signature header is supplied *and* the posture is production.  Then: a
correctly signed payload verifies and is dispatched; a signature that
differs from the HMAC recomputed over the payload fails verification and
the webhook is rejected with outcome `rejected` (in particular, altering
the payload or the signature so that they no longer match rejects); an
unsigned payload skips verification and is dispatched to its registered
handler even in production; in every non-production posture verification
is skipped for signed and unsigned payloads alike, and a registered,
non-raising handler yields outcome `processed`. -/
theorem c5_signature_verification_amended (secret payload event sig env : String)
    (handlers : List String) (handlerOk : String → Bool) :
    (verifySignature secret payload (generateSignature secret payload) = true) ∧
    (sig ≠ generateSignature secret payload →
      verifySignature secret payload sig = false) ∧
    (sig ≠ "" → sig ≠ generateSignature secret payload →
      processWebhook "production" secret handlers handlerOk event payload (some sig) =
        .rejected) ∧
    (processWebhook "production" secret handlers handlerOk event payload
        (some (generateSignature secret payload)) =
      dispatchWebhook handlers handlerOk event) ∧
    (processWebhook "production" secret handlers handlerOk event payload none =
      dispatchWebhook handlers handlerOk event) ∧
    (env ≠ "production" →
      processWebhook env secret handlers handlerOk event payload (some sig) =
        dispatchWebhook handlers handlerOk event ∧
      processWebhook env secret handlers handlerOk event payload none =
        dispatchWebhook handlers handlerOk event) ∧
    (event ∈ handlers → handlerOk event = true →
      dispatchWebhook handlers handlerOk event = .processed) := by
  refine ⟨by simp [verifySignature], fun hsig => ?_, fun hne hsig => ?_, ?_, rfl,
    fun henv => ⟨?_, rfl⟩, fun hmem hok => ?_⟩
  · exact decide_eq_false (fun h => hsig h.symm)
  · have hv : verifySignature secret payload sig = false :=
      decide_eq_false (fun h => hsig h.symm)
    simp [processWebhook, hne, hv]
  · simp [processWebhook, generateSignature_ne_empty secret payload, verifySignature]
  · simp [processWebhook, henv]
  · simp [dispatchWebhook, hmem, hok]

/-- C5 witness: secret `"s"`, payload `"p"`, a wrong signature
`"sha256=bad"` in production, and the non-production posture
`"staging"`. -/
theorem c5_signature_verification_amended_witness :
    ("sha256=bad" ≠ "") ∧
    ("sha256=bad" ≠ generateSignature "s" "p") ∧
    ("staging" ≠ "production") ∧
    processWebhook "production" "s" ["content_approved"] (fun _ => true)
      "content_approved" "p" (some "sha256=bad") = .rejected ∧
    processWebhook "staging" "s" ["content_approved"] (fun _ => true)
      "content_approved" "p" (some "sha256=bad") =
      dispatchWebhook ["content_approved"] (fun _ => true) "content_approved" := by
  refine ⟨by decide, by decide, by decide, ?_, ?_⟩
  · exact (c5_signature_verification_amended "s" "p" "content_approved"
      "sha256=bad" "staging" ["content_approved"] (fun _ => true)).2.2.1
      (by decide) (by decide)
  · exact ((c5_signature_verification_amended "s" "p" "content_approved"
      "sha256=bad" "staging" ["content_approved"] (fun _ => true)).2.2.2.2.2.1
      (by decide)).1

theorem processOne_dead_sub (now : ℚ) (f : RetryWebhook → Bool) (st : WHState)
    (w : RetryWebhook) : st.dead ⊆ (processOne now f st w).dead := by
  intro x hx
  unfold processOne
  split
  · exact List.mem_append_left _ hx
  · split
    · exact hx
    · exact hx

theorem foldl_dead_sub (now : ℚ) (f : RetryWebhook → Bool)
    (due : List RetryWebhook) (st : WHState) :
    st.dead ⊆ (due.foldl (processOne now f) st).dead := by
  induction due generalizing st with
  | nil => exact fun _ hx => hx
  | cons d ds ih => exact fun x hx => ih _ (processOne_dead_sub now f st d hx)

theorem foldl_dead_insert (now : ℚ) (f : RetryWebhook → Bool)
    (due : List RetryWebhook) (st : WHState) (w : RetryWebhook)
    (hw : w ∈ due) (hmax : max_retries ≤ w.attempt) :
    (⟨w, now, "max_retries_exceeded"⟩ : DeadWebhook) ∈
      (due.foldl (processOne now f) st).dead := by
  induction due generalizing st with
  | nil => cases hw
  | cons d ds ih =>
    rcases List.mem_cons.mp hw with rfl | hw'
    · refine foldl_dead_sub now f ds (processOne now f st w) ?_
      unfold processOne
      rw [if_pos hmax]
      exact List.mem_append_right _ (List.mem_singleton_self _)
    · exact ih (processOne now f st d) hw'

theorem foldl_pending_mem (now : ℚ) (f : RetryWebhook → Bool)
    (due : List RetryWebhook) (st : WHState) (x : RetryWebhook)
    (h : x ∈ (due.foldl (processOne now f) st).pending) :
    x ∈ st.pending ∨ ∃ d ∈ due, ¬ max_retries ≤ d.attempt ∧
      x = mkRetryEntry d.url d.payload d.webhook_id (d.attempt + 1) now := by
  induction due generalizing st with
  | nil => exact Or.inl h
  | cons d ds ih =>
    rcases ih (processOne now f st d) h with hm | ⟨e, he, hlt, heq⟩
    · unfold processOne at hm
      split at hm
      · exact Or.inl hm
      · split at hm
        · exact Or.inl hm
        · rename_i hlt' hf'
          simp only [queueForRetry, List.mem_append] at hm
          rcases hm with hm | hm
          · exact Or.inl hm
          · exact Or.inr ⟨d, List.mem_cons_self d ds, hlt', by simpa using hm⟩
    · exact Or.inr ⟨e, List.mem_cons_of_mem d he, hlt, heq⟩

theorem processRetryQueue_no_id (s : WHState) (now : ℚ) (f : RetryWebhook → Bool)
    (id : String) (h : ∀ x ∈ s.pending, x.webhook_id ≠ id) :
    ∀ x ∈ (processRetryQueue s now f).pending, x.webhook_id ≠ id := by
  intro x hx
  simp only [processRetryQueue] at hx
  rcases foldl_pending_mem now f _ _ x hx with hm | ⟨d, hd, -, rfl⟩
  · exact h x (List.mem_filter.mp hm).1
  · exact h d (List.mem_filter.mp hd).1

theorem attemptedIn_sub (s : WHState) (now : ℚ) :
    ∀ x ∈ attemptedIn s now, x ∈ s.pending := by
  intro x hx
  exact (List.mem_filter.mp (List.mem_filter.mp hx).1).1

theorem attemptsDuring_no_id (s : WHState) (runs : List (ℚ × (RetryWebhook → Bool)))
    (id : String) (h : ∀ x ∈ s.pending, x.webhook_id ≠ id) :
    (∀ x ∈ attemptsDuring s runs, x.webhook_id ≠ id) ∧
    (∀ x ∈ (processRuns s runs).pending, x.webhook_id ≠ id) := by
  induction runs generalizing s with
  | nil =>
    refine ⟨fun x hx => ?_, h⟩
    simp [attemptsDuring] at hx
  | cons r rs ih =>
    obtain ⟨now, f⟩ := r
    obtain ⟨ha, hp⟩ := ih (processRetryQueue s now f) (processRetryQueue_no_id s now f id h)
    refine ⟨fun x hx => ?_, hp⟩
    rcases List.mem_append.mp (by simpa [attemptsDuring] using hx) with hx' | hx'
    · exact h x (attemptedIn_sub s now x hx')
    · exact ha x hx'

theorem processRetryQueue_dead_sub (s : WHState) (now : ℚ) (f : RetryWebhook → Bool) :
    s.dead ⊆ (processRetryQueue s now f).dead := by
  intro x hx
  simp only [processRetryQueue]
  exact foldl_dead_sub now f _ _ hx

theorem processRuns_dead_sub (s : WHState) (runs : List (ℚ × (RetryWebhook → Bool))) :
    s.dead ⊆ (processRuns s runs).dead := by
  induction runs generalizing s with
  | nil => exact fun _ hx => hx
  | cons r rs ih =>
    obtain ⟨now, f⟩ := r
    exact fun x hx => ih _ (processRetryQueue_dead_sub s now f hx)

/-- C3: (a) every requeue at attempt number `n` appends a pending entry
whose `next_retry` is the current instant plus the delay
`[5, 30, 120][min(n, 2)]` — the schedule indexed by attempt and clamped to
the last entry; (b) a due pending webhook whose attempt count has reached
`max_retries = 3` (and which is the only pending entry bearing its id) is
moved by the retry processor to the dead-letter set with recorded reason
`"max_retries_exceeded"` and its id leaves the pending queue; (c) a
webhook id absent from the pending queue is never attempted again over any
further sequence of processor runs, no matter the instants; and (d)
dead-letter entries persist through every further run. -/
theorem c3_webhook_retry_schedule_and_dead_letter :
    (∀ (st : WHState) (url p id : String) (n : Nat) (now : ℚ),
      (queueForRetry st url p id n now).pending =
        st.pending ++ [mkRetryEntry url p id n now] ∧
      (mkRetryEntry url p id n now).next_retry =
        now + retry_delays.getD (min n 2) 0) ∧
    (∀ (s : WHState) (now : ℚ) (f : RetryWebhook → Bool) (w : RetryWebhook),
      w.next_retry ≤ now → max_retries ≤ w.attempt →
      s.pending.filter (fun x => decide (x.webhook_id = w.webhook_id)) = [w] →
      (⟨w, now, "max_retries_exceeded"⟩ : DeadWebhook) ∈
        (processRetryQueue s now f).dead ∧
      (∀ x ∈ (processRetryQueue s now f).pending, x.webhook_id ≠ w.webhook_id)) ∧
    (∀ (s : WHState) (id : String) (runs : List (ℚ × (RetryWebhook → Bool))),
      (∀ x ∈ s.pending, x.webhook_id ≠ id) →
      (∀ x ∈ attemptsDuring s runs, x.webhook_id ≠ id) ∧
      (∀ x ∈ (processRuns s runs).pending, x.webhook_id ≠ id)) ∧
    (∀ (s : WHState) (runs : List (ℚ × (RetryWebhook → Bool))) (dw : DeadWebhook),
      dw ∈ s.dead → dw ∈ (processRuns s runs).dead) := by
  refine ⟨fun st url p id n now => ⟨rfl, rfl⟩,
    fun s now f w hdue hmax hfilter => ?_,
    fun s id runs h => attemptsDuring_no_id s runs id h,
    fun s runs dw hdw => processRuns_dead_sub s runs hdw⟩
  have hwpend : w ∈ s.pending := by
    have hmem : w ∈ s.pending.filter (fun x => decide (x.webhook_id = w.webhook_id)) := by
      rw [hfilter]
      exact List.mem_singleton_self w
    exact (List.mem_filter.mp hmem).1
  constructor
  · simp only [processRetryQueue]
    apply foldl_dead_insert now f _ _ w ?_ hmax
    exact List.mem_filter.mpr ⟨hwpend, by simpa using hdue⟩
  · intro x hx hid
    simp only [processRetryQueue] at hx
    rcases foldl_pending_mem now f _ _ x hx with hm | ⟨d, hd, hlt, rfl⟩
    · have hxp := List.mem_filter.mp hm
      have hxid : x ∈ s.pending.filter (fun y => decide (y.webhook_id = w.webhook_id)) :=
        List.mem_filter.mpr ⟨hxp.1, by simpa using hid⟩
      rw [hfilter] at hxid
      obtain rfl : x = w := by simpa using hxid
      have hnd : ¬ (x.next_retry ≤ now) := by simpa using hxp.2
      exact hnd hdue
    · have hdp := List.mem_filter.mp hd
      have hd_id : d.webhook_id = w.webhook_id := hid
      have hdmem : d ∈ s.pending.filter (fun y => decide (y.webhook_id = w.webhook_id)) :=
        List.mem_filter.mpr ⟨hdp.1, by simpa using hd_id⟩
      rw [hfilter] at hdmem
      obtain rfl : d = w := by simpa using hdmem
      exact hlt hmax

/-- C3 witness: a single pending webhook `"wid"` queued at attempt 3 at
instant 0 (so `next_retry = 120`), processed — with delivery still
failing — at instant 200, then two further runs at instants 300 and 400. -/
theorem c3_webhook_retry_schedule_and_dead_letter_witness :
    ((mkRetryEntry "u" "pl" "wid" 3 0).next_retry ≤ 200) ∧
    (max_retries ≤ (mkRetryEntry "u" "pl" "wid" 3 0).attempt) ∧
    ([mkRetryEntry "u" "pl" "wid" 3 0].filter
      (fun x => decide (x.webhook_id = (mkRetryEntry "u" "pl" "wid" 3 0).webhook_id)) =
      [mkRetryEntry "u" "pl" "wid" 3 0]) ∧
    ((⟨mkRetryEntry "u" "pl" "wid" 3 0, 200, "max_retries_exceeded"⟩ : DeadWebhook) ∈
      (processRetryQueue ⟨[mkRetryEntry "u" "pl" "wid" 3 0], []⟩ 200
        (fun _ => false)).dead ∧
     (∀ x ∈ (processRetryQueue ⟨[mkRetryEntry "u" "pl" "wid" 3 0], []⟩ 200
        (fun _ => false)).pending,
       x.webhook_id ≠ (mkRetryEntry "u" "pl" "wid" 3 0).webhook_id)) := by
  refine ⟨by norm_num [mkRetryEntry, retry_delays], by decide, by simp, ?_⟩
  exact (c3_webhook_retry_schedule_and_dead_letter).2.1
    ⟨[mkRetryEntry "u" "pl" "wid" 3 0], []⟩ 200 (fun _ => false)
    (mkRetryEntry "u" "pl" "wid" 3 0)
    (by norm_num [mkRetryEntry, retry_delays]) (by decide) (by simp)

end ContentApi
